import Mathlib

/-!
Verification of the `genasmdb` generator (internal/genasmdb/x86.go).

The program has two parts:

* a marker-delimited extractor `parse` that, given the raw bytes of a
  JavaScript data file, returns the byte slice between the two magic
  comments, trimming one byte of newline on each side;
* a schema mapper: `json.Unmarshal` into the `X86` record followed by a
  loop deriving one `X86Instruction` per raw 5-string tuple.

Bytes are modelled as `Nat` (the Go code works on `[]byte`); byte strings
are `List Nat`.  Field values of the decoded records are Lean `String`s.
-/

/-- Error kinds of the extractor `parse` (x86.go lines 246-262): the three
`fmt.Errorf` returns, in order: begin marker not found by `bytes.SplitN`,
empty remainder after the begin marker, end marker not found (or found at
index 0) by `bytes.Index`. -/
inductive ParseErr where
  | beginMarkerNotFound : ParseErr
  | emptyData : ParseErr
  | endMarkerNotFound : ParseErr
deriving DecidableEq

/-- The bytes of the Go constant `markJSONBegin`, the string
"// ${JSON:BEGIN}" (x86.go line 233). -/
def markJSONBegin : List Nat :=
  [47, 47, 32, 36, 123, 74, 83, 79, 78, 58, 66, 69, 71, 73, 78, 125]

/-- The bytes of the Go constant `markJSONEnd`, the string
"// ${JSON:END}" (x86.go line 236). -/
def markJSONEnd : List Nat :=
  [47, 47, 32, 36, 123, 74, 83, 79, 78, 58, 69, 78, 68, 125]

/-- Index of the first occurrence of `pat` in `s`, or `none`: the model of
Go `bytes.Index` (for a non-empty pattern).  `bytes.SplitN(s, pat, 2)`
yields one piece exactly when this is `none`, and otherwise splits around
the occurrence at the returned index. -/
def firstIdx (pat : List Nat) : List Nat → Option Nat
  | [] => if pat.isPrefixOf [] then some 0 else none
  | a :: s => if pat.isPrefixOf (a :: s) then some 0 else (firstIdx pat s).map (· + 1)

/-- The extractor `parse` (x86.go lines 239-265) on the bytes read from the
reader.  Mirrors the Go code step for step: split on the first occurrence
of `markJSONBegin` (error when absent), error when the remainder is empty,
drop one leading byte (`data = data[1:]`), find `markJSONEnd` in the rest
(error when absent or at index 0, Go `idx <= 0`), and return everything
before index `idx - 1` (`data = data[:idx-1]`). -/
def parse (buf : List Nat) : Except ParseErr (List Nat) :=
  match firstIdx markJSONBegin buf with
  | none => .error .beginMarkerNotFound
  | some i =>
    match buf.drop (i + markJSONBegin.length) with
    | [] => .error .emptyData
    | _ :: d2 =>
      match firstIdx markJSONEnd d2 with
      | none => .error .endMarkerNotFound
      | some idx =>
        if idx = 0 then .error .endMarkerNotFound
        else .ok (d2.take (idx - 1))

/-- Go slice expression `s[lo:]`: `none` models the runtime panic when
`lo` is out of range. -/
def goSliceFrom (s : List Nat) (lo : Nat) : Option (List Nat) :=
  if lo ≤ s.length then some (s.drop lo) else none

/-- Go slice expression `s[:hi]` with an `int` bound: `none` models the
runtime panic when `hi` is negative or larger than the length. -/
def goSliceUpto (s : List Nat) (hi : Int) : Option (List Nat) :=
  if 0 ≤ hi ∧ hi ≤ (s.length : Int) then some (s.take hi.toNat) else none

/-- The extractor with the two slice expressions of the Go code
(`data[1:]` at line 255 and `data[:idx-1]` at line 262) modelled as
checked operations: the result `none` stands for an out-of-bounds slice
panic.  `parseChecked` is used to state that `parse` never slices out of
bounds. -/
def parseChecked (buf : List Nat) : Option (Except ParseErr (List Nat)) :=
  match firstIdx markJSONBegin buf with
  | none => some (.error .beginMarkerNotFound)
  | some i =>
    let data := buf.drop (i + markJSONBegin.length)
    if data.length = 0 then some (.error .emptyData)
    else
      match goSliceFrom data 1 with
      | none => none
      | some d2 =>
        match firstIdx markJSONEnd d2 with
        | none => some (.error .endMarkerNotFound)
        | some idx =>
          if idx = 0 then some (.error .endMarkerNotFound)
          else
            match goSliceUpto d2 ((idx : Int) - 1) with
            | none => none
            | some out => some (.ok out)

/-- JSON values, the input domain of the schema mapper. -/
inductive Json where
  | null : Json
  | bool (b : Bool) : Json
  | num (n : Int) : Json
  | str (s : String) : Json
  | arr (elems : List Json) : Json
  | obj (members : List (String × Json)) : Json

/-- Value of the first member with the given key, JSON object member lookup
by exact, case-sensitive name. -/
def lookupKey (k : String) : List (String × Json) → Option Json
  | [] => none
  | (k2, v) :: rest => if k2 = k then some v else lookupKey k rest

/-- Error kinds of the schema mapper, named as in the specification:
`schemaMismatch` for a JSON structure that does not fit the record shape,
`malformedInstructionTuple` for an instruction tuple without exactly five
elements.  In the code the tuple arity is part of the record shape (the
field type `[][5]string`, x86.go line 81), so the decoder below only ever
produces `schemaMismatch`; the second kind exists to state claims about
it. -/
inductive DecodeErr where
  | schemaMismatch : DecodeErr
  | malformedInstructionTuple : DecodeErr
deriving DecidableEq

/-- Go struct `X86Extension` (x86.go lines 85-87). -/
structure X86Extension where
  Name : String
deriving DecidableEq

/-- Go struct `X86Attribute` (x86.go lines 90-94); the Go field `Type` is
`Type'` here because `Type` is reserved in Lean. -/
structure X86Attribute where
  Name : String
  Type' : String
  Doc : String
deriving DecidableEq

/-- Go struct `X86SpecialReg` (x86.go lines 97-101). -/
structure X86SpecialReg where
  Name : String
  Group : String
  Doc : String
deriving DecidableEq

/-- Go struct `X86Shortcut` (x86.go lines 104-107). -/
structure X86Shortcut where
  Name : String
  Expand : String
deriving DecidableEq

/-- Go struct `X86RegisterData` (x86.go lines 131-135); `Any` carries
`omitempty` in the source and is optional in the specification. -/
structure X86RegisterData where
  Names : List String
  Kind : String
  Any : Option String
deriving DecidableEq

/-- Go struct `X86Register` (x86.go lines 110-128): one optional
register-class entry per fixed key; the Go fields are pointers, hence
`Option`. -/
structure X86Register where
  Bnd : Option X86RegisterData
  Creg : Option X86RegisterData
  Dreg : Option X86RegisterData
  K : Option X86RegisterData
  Mm : Option X86RegisterData
  R16 : Option X86RegisterData
  R32 : Option X86RegisterData
  R64 : Option X86RegisterData
  R8 : Option X86RegisterData
  R8hi : Option X86RegisterData
  Rxx : Option X86RegisterData
  Sreg : Option X86RegisterData
  St : Option X86RegisterData
  Tmm : Option X86RegisterData
  Xmm : Option X86RegisterData
  Ymm : Option X86RegisterData
  Zmm : Option X86RegisterData
deriving DecidableEq

/-- One raw instruction tuple, the Go element type `[5]string` of
`X86.Instructions` (x86.go line 81): exactly five strings, positions 0-4. -/
structure InstTuple where
  el0 : String
  el1 : String
  el2 : String
  el3 : String
  el4 : String
deriving DecidableEq

/-- Go struct `X86` (x86.go lines 74-82), the top-level record of the
instruction-set database. -/
structure X86 where
  Architectures : List String
  Extensions : List X86Extension
  Attributes : List X86Attribute
  SpecialRegs : List X86SpecialReg
  Shortcuts : List X86Shortcut
  Register : X86Register
  Instructions : List InstTuple
deriving DecidableEq

/-- Go struct `X86Instruction` (x86.go lines 138-144), the derived record
with one named field per tuple position. -/
structure X86Instruction where
  Name : String
  Operands : String
  Encoding : String
  OpCode : String
  Metadata : String
deriving DecidableEq

/-- Sequential decoding of a list, stopping at the first failure — the
order in which the JSON array elements are decoded. -/
def exceptMapList (f : Json → Except DecodeErr α) : List Json → Except DecodeErr (List α)
  | [] => .ok []
  | j :: js =>
    match f j with
    | .error e => .error e
    | .ok a =>
      match exceptMapList f js with
      | .error e => .error e
      | .ok as => .ok (a :: as)

/-- Decode a JSON string; anything else is a schema mismatch.
Modelled from the spec: the unmarshalling semantics of the
`go-json-experiment/json` library are not part of this repository; the
spec's Schema Mapper contract (strict structural decoding, wrong types
fail with `SchemaMismatch`) is used for them here and below. -/
def asStr : Json → Except DecodeErr String
  | .str s => .ok s
  | _ => .error .schemaMismatch

/-- Decode a JSON array elementwise; a non-array is a schema mismatch. -/
def decodeJsonList (f : Json → Except DecodeErr α) : Json → Except DecodeErr (List α)
  | .arr xs => exceptMapList f xs
  | _ => .error .schemaMismatch

/-- Decode the required member `k` of an object: absent key fails.
Modelled from the spec: the spec requires the named keys of the record
to be present (`SchemaMismatch` when a required field is missing). -/
def reqField (k : String) (kvs : List (String × Json)) (f : Json → Except DecodeErr α) :
    Except DecodeErr α :=
  match lookupKey k kvs with
  | some v => f v
  | none => .error .schemaMismatch

/-- Decoder for `X86Extension`: object with the member `name`. -/
def decodeExtension : Json → Except DecodeErr X86Extension
  | .obj kvs =>
    match reqField "name" kvs asStr with
    | .ok n => .ok ⟨n⟩
    | .error e => .error e
  | _ => .error .schemaMismatch

/-- Decoder for `X86Attribute`: object with members `name`, `type`, `doc`. -/
def decodeAttribute : Json → Except DecodeErr X86Attribute
  | .obj kvs =>
    match reqField "name" kvs asStr, reqField "type" kvs asStr, reqField "doc" kvs asStr with
    | .ok n, .ok t, .ok d => .ok ⟨n, t, d⟩
    | _, _, _ => .error .schemaMismatch
  | _ => .error .schemaMismatch

/-- Decoder for `X86SpecialReg`: object with members `name`, `group`, `doc`. -/
def decodeSpecialReg : Json → Except DecodeErr X86SpecialReg
  | .obj kvs =>
    match reqField "name" kvs asStr, reqField "group" kvs asStr, reqField "doc" kvs asStr with
    | .ok n, .ok g, .ok d => .ok ⟨n, g, d⟩
    | _, _, _ => .error .schemaMismatch
  | _ => .error .schemaMismatch

/-- Decoder for `X86Shortcut`: object with members `name`, `expand`. -/
def decodeShortcut : Json → Except DecodeErr X86Shortcut
  | .obj kvs =>
    match reqField "name" kvs asStr, reqField "expand" kvs asStr with
    | .ok n, .ok e2 => .ok ⟨n, e2⟩
    | _, _ => .error .schemaMismatch
  | _ => .error .schemaMismatch

/-- The optional member `any` of a register-class object (`omitempty` in
the source): absent is `none`, a string is `some`, anything else is a
schema mismatch. -/
def decodeAnyField (kvs : List (String × Json)) : Except DecodeErr (Option String) :=
  match lookupKey "any" kvs with
  | none => .ok none
  | some (.str a) => .ok (some a)
  | some _ => .error .schemaMismatch

/-- Decoder for `X86RegisterData`: object with members `names` (array of
string), `kind` (string) and the optional `any`. -/
def decodeRegisterData : Json → Except DecodeErr X86RegisterData
  | .obj kvs =>
    match reqField "names" kvs (decodeJsonList asStr), reqField "kind" kvs asStr,
        decodeAnyField kvs with
    | .ok ns, .ok kd, .ok an => .ok ⟨ns, kd, an⟩
    | _, _, _ => .error .schemaMismatch
  | _ => .error .schemaMismatch

/-- Decoder for one optional register-class member: an absent key or a
JSON null is a nil pointer in Go, hence `none`. -/
def decodeOptRegData : Option Json → Except DecodeErr (Option X86RegisterData)
  | none => .ok none
  | some .null => .ok none
  | some v =>
    match decodeRegisterData v with
    | .ok d => .ok (some d)
    | .error e => .error e

/-- Decoder for `X86Register`: object with one optional member per
register-class key, in the order of the Go struct fields. -/
def decodeRegister : Json → Except DecodeErr X86Register
  | .obj kvs =>
    match decodeOptRegData (lookupKey "bnd" kvs), decodeOptRegData (lookupKey "creg" kvs),
        decodeOptRegData (lookupKey "dreg" kvs), decodeOptRegData (lookupKey "k" kvs),
        decodeOptRegData (lookupKey "mm" kvs), decodeOptRegData (lookupKey "r16" kvs),
        decodeOptRegData (lookupKey "r32" kvs), decodeOptRegData (lookupKey "r64" kvs),
        decodeOptRegData (lookupKey "r8" kvs), decodeOptRegData (lookupKey "r8hi" kvs),
        decodeOptRegData (lookupKey "rxx" kvs), decodeOptRegData (lookupKey "sreg" kvs),
        decodeOptRegData (lookupKey "st" kvs), decodeOptRegData (lookupKey "tmm" kvs),
        decodeOptRegData (lookupKey "xmm" kvs), decodeOptRegData (lookupKey "ymm" kvs),
        decodeOptRegData (lookupKey "zmm" kvs) with
    | .ok bnd, .ok creg, .ok dreg, .ok k, .ok mm, .ok r16, .ok r32, .ok r64, .ok r8,
      .ok r8hi, .ok rxx, .ok sreg, .ok st, .ok tmm, .ok xmm, .ok ymm, .ok zmm =>
      .ok ⟨bnd, creg, dreg, k, mm, r16, r32, r64, r8, r8hi, rxx, sreg, st, tmm, xmm, ymm, zmm⟩
    | _, _, _, _, _, _, _, _, _, _, _, _, _, _, _, _, _ => .error .schemaMismatch
  | _ => .error .schemaMismatch

/-- Decoder for one raw instruction tuple, the Go element type
`[5]string`: the JSON value must be an array of exactly five elements
(the fixed Go array length) and every element must be a string. -/
def decodeInstTuple : Json → Except DecodeErr InstTuple
  | .arr [j0, j1, j2, j3, j4] =>
    match asStr j0, asStr j1, asStr j2, asStr j3, asStr j4 with
    | .ok a, .ok b, .ok c, .ok d, .ok e => .ok ⟨a, b, c, d, e⟩
    | _, _, _, _, _ => .error .schemaMismatch
  | _ => .error .schemaMismatch

/-- The `instructions` member (`omitempty` in the source): an absent key
is a nil slice in Go, i.e. no instruction tuples. -/
def decodeInstructions (kvs : List (String × Json)) : Except DecodeErr (List InstTuple) :=
  match lookupKey "instructions" kvs with
  | none => .ok []
  | some v => decodeJsonList decodeInstTuple v

/-- Assembles the seven decoded components of `X86`; any component
failure is a schema mismatch. -/
def combineX86 (a : Except DecodeErr (List String))
    (b : Except DecodeErr (List X86Extension))
    (c : Except DecodeErr (List X86Attribute))
    (d : Except DecodeErr (List X86SpecialReg))
    (e : Except DecodeErr (List X86Shortcut))
    (f : Except DecodeErr X86Register)
    (g : Except DecodeErr (List InstTuple)) : Except DecodeErr X86 :=
  match a, b, c, d, e, f, g with
  | .ok a1, .ok b1, .ok c1, .ok d1, .ok e1, .ok f1, .ok g1 => .ok ⟨a1, b1, c1, d1, e1, f1, g1⟩
  | _, _, _, _, _, _, _ => .error .schemaMismatch

/-- The schema mapper `decode`: `json.Unmarshal` of the extracted bytes
into the `X86` record (x86.go lines 208-211), with the member names given
by the struct tags of `X86`. -/
def decodeX86 : Json → Except DecodeErr X86
  | .obj kvs =>
    combineX86 (reqField "architectures" kvs (decodeJsonList asStr))
      (reqField "extensions" kvs (decodeJsonList decodeExtension))
      (reqField "attributes" kvs (decodeJsonList decodeAttribute))
      (reqField "specialRegs" kvs (decodeJsonList decodeSpecialReg))
      (reqField "shortcuts" kvs (decodeJsonList decodeShortcut))
      (reqField "registers" kvs decodeRegister)
      (decodeInstructions kvs)
  | _ => .error .schemaMismatch

/-- The derived step of `gen` (x86.go lines 217-225): one `X86Instruction`
per raw tuple, in order, with the fixed positional mapping 0=Name,
1=Operands, 2=Encoding, 3=OpCode, 4=Metadata. -/
def genInstructions (instructions : List InstTuple) : List X86Instruction :=
  instructions.map fun t =>
    { Name := t.el0, Operands := t.el1, Encoding := t.el2, OpCode := t.el3, Metadata := t.el4 }

/-- The decode-and-derive pipeline of `gen` (x86.go lines 208-228, without
the printing): decode the database, clear its instruction list, and derive
the named instruction records. -/
def gen (j : Json) : Except DecodeErr (X86 × List X86Instruction) :=
  match decodeX86 j with
  | .error e => .error e
  | .ok x => .ok ({ x with Instructions := [] }, genInstructions x.Instructions)

/-- Conformance of a JSON value to the string type. -/
def isStr : Json → Bool
  | .str _ => true
  | _ => false

/-- Conformance to an array whose elements all satisfy `p`. -/
def confList (p : Json → Bool) : Json → Bool
  | .arr xs => xs.all p
  | _ => false

/-- Conformance of the required member `k` of an object: present and of
the right shape. -/
def confKey (k : String) (kvs : List (String × Json)) (p : Json → Bool) : Bool :=
  match lookupKey k kvs with
  | some v => p v
  | none => false

/-- Declarative record shape of an extension, following the spec's schema:
object with key `name` (string). -/
def confExtension : Json → Bool
  | .obj kvs => confKey "name" kvs isStr
  | _ => false

/-- Declarative record shape of an attribute: object with keys `name`,
`type`, `doc` (strings). -/
def confAttribute : Json → Bool
  | .obj kvs => confKey "name" kvs isStr && confKey "type" kvs isStr && confKey "doc" kvs isStr
  | _ => false

/-- Declarative record shape of a special register: object with keys
`name`, `group`, `doc` (strings). -/
def confSpecialReg : Json → Bool
  | .obj kvs => confKey "name" kvs isStr && confKey "group" kvs isStr && confKey "doc" kvs isStr
  | _ => false

/-- Declarative record shape of a shortcut: object with keys `name`,
`expand` (strings). -/
def confShortcut : Json → Bool
  | .obj kvs => confKey "name" kvs isStr && confKey "expand" kvs isStr
  | _ => false

/-- Declarative shape of the optional `any` member. -/
def confAnyField (kvs : List (String × Json)) : Bool :=
  match lookupKey "any" kvs with
  | none => true
  | some (.str _) => true
  | some _ => false

/-- Declarative record shape of a register class: object with `names`
(array of string), `kind` (string), optional `any` (string). -/
def confRegisterData : Json → Bool
  | .obj kvs => confKey "names" kvs (confList isStr) && confKey "kind" kvs isStr && confAnyField kvs
  | _ => false

/-- Declarative shape of one optional register-class member: absent,
null, or a register-class object. -/
def confOptRegData : Option Json → Bool
  | none => true
  | some .null => true
  | some v => confRegisterData v

/-- Declarative record shape of the register set: object with one
optional member per fixed register-class key. -/
def confRegister : Json → Bool
  | .obj kvs =>
    confOptRegData (lookupKey "bnd" kvs) && confOptRegData (lookupKey "creg" kvs)
    && confOptRegData (lookupKey "dreg" kvs) && confOptRegData (lookupKey "k" kvs)
    && confOptRegData (lookupKey "mm" kvs) && confOptRegData (lookupKey "r16" kvs)
    && confOptRegData (lookupKey "r32" kvs) && confOptRegData (lookupKey "r64" kvs)
    && confOptRegData (lookupKey "r8" kvs) && confOptRegData (lookupKey "r8hi" kvs)
    && confOptRegData (lookupKey "rxx" kvs) && confOptRegData (lookupKey "sreg" kvs)
    && confOptRegData (lookupKey "st" kvs) && confOptRegData (lookupKey "tmm" kvs)
    && confOptRegData (lookupKey "xmm" kvs) && confOptRegData (lookupKey "ymm" kvs)
    && confOptRegData (lookupKey "zmm" kvs)
  | _ => false

/-- Declarative shape of one instruction tuple: an array of exactly five
strings. -/
def confInstTuple : Json → Bool
  | .arr xs => decide (xs.length = 5) && xs.all isStr
  | _ => false

/-- Declarative shape of the optional `instructions` member: absent, or
an array of five-string tuples. -/
def confInstructions (kvs : List (String × Json)) : Bool :=
  match lookupKey "instructions" kvs with
  | none => true
  | some v => confList confInstTuple v

/-- Declarative record shape of the whole database, the spec's schema
(§6): required keys `architectures`, `extensions`, `attributes`,
`specialRegs`, `shortcuts`, `registers`, optional `instructions`. -/
def conformsX86 : Json → Bool
  | .obj kvs =>
    confKey "architectures" kvs (confList isStr)
    && confKey "extensions" kvs (confList confExtension)
    && confKey "attributes" kvs (confList confAttribute)
    && confKey "specialRegs" kvs (confList confSpecialReg)
    && confKey "shortcuts" kvs (confList confShortcut)
    && confKey "registers" kvs confRegister
    && confInstructions kvs
  | _ => false

/-- Canonical JSON form of an extension record. -/
def encodeExtension (e : X86Extension) : Json := .obj [("name", .str e.Name)]

/-- Canonical JSON form of an attribute record. -/
def encodeAttribute (a : X86Attribute) : Json :=
  .obj [("name", .str a.Name), ("type", .str a.Type'), ("doc", .str a.Doc)]

/-- Canonical JSON form of a special-register record. -/
def encodeSpecialReg (s : X86SpecialReg) : Json :=
  .obj [("name", .str s.Name), ("group", .str s.Group), ("doc", .str s.Doc)]

/-- Canonical JSON form of a shortcut record. -/
def encodeShortcut (s : X86Shortcut) : Json :=
  .obj [("name", .str s.Name), ("expand", .str s.Expand)]

/-- Canonical JSON form of a register-class record; the optional `any`
member is emitted only when present (`omitempty`). -/
def encodeRegisterData (d : X86RegisterData) : Json :=
  .obj ([("names", .arr (d.Names.map .str)), ("kind", .str d.Kind)]
    ++ (match d.Any with
        | none => []
        | some a => [("any", .str a)]))

/-- Canonical JSON form of one optional register-class member: `null`
for a nil pointer. -/
def encodeOptRegData : Option X86RegisterData → Json
  | none => .null
  | some d => encodeRegisterData d

/-- Canonical JSON form of the register set. -/
def encodeRegister (r : X86Register) : Json :=
  .obj [("bnd", encodeOptRegData r.Bnd), ("creg", encodeOptRegData r.Creg),
    ("dreg", encodeOptRegData r.Dreg), ("k", encodeOptRegData r.K),
    ("mm", encodeOptRegData r.Mm), ("r16", encodeOptRegData r.R16),
    ("r32", encodeOptRegData r.R32), ("r64", encodeOptRegData r.R64),
    ("r8", encodeOptRegData r.R8), ("r8hi", encodeOptRegData r.R8hi),
    ("rxx", encodeOptRegData r.Rxx), ("sreg", encodeOptRegData r.Sreg),
    ("st", encodeOptRegData r.St), ("tmm", encodeOptRegData r.Tmm),
    ("xmm", encodeOptRegData r.Xmm), ("ymm", encodeOptRegData r.Ymm),
    ("zmm", encodeOptRegData r.Zmm)]

/-- Canonical JSON form of one raw instruction tuple. -/
def encodeInstTuple (t : InstTuple) : Json :=
  .arr [.str t.el0, .str t.el1, .str t.el2, .str t.el3, .str t.el4]

/-- Canonical JSON form of the whole database record. -/
def encodeX86 (x : X86) : Json :=
  .obj [("architectures", .arr (x.Architectures.map .str)),
    ("extensions", .arr (x.Extensions.map encodeExtension)),
    ("attributes", .arr (x.Attributes.map encodeAttribute)),
    ("specialRegs", .arr (x.SpecialRegs.map encodeSpecialReg)),
    ("shortcuts", .arr (x.Shortcuts.map encodeShortcut)),
    ("registers", encodeRegister x.Register),
    ("instructions", .arr (x.Instructions.map encodeInstTuple))]

/-- A decoder `f` and a declarative shape `p` agree: on every JSON value
the decoder succeeds exactly on the conforming values and otherwise fails
with a schema mismatch. -/
def DecCases (f : Json → Except DecodeErr α) (p : Json → Bool) : Prop :=
  ∀ j, (∃ a, f j = .ok a ∧ p j = true) ∨ (f j = .error .schemaMismatch ∧ p j = false)

example : parse (markJSONBegin ++ [10, 65, 10] ++ markJSONEnd) = .ok [65] := by rfl

example : parse [1, 2, 3] = .error .beginMarkerNotFound := by rfl

lemma firstIdx_some_prefix {pat : List Nat} :
    ∀ {s : List Nat} {i : Nat}, firstIdx pat s = some i → pat <+: s.drop i := by
  intro s
  induction s with
  | nil =>
    intro i h
    simp only [firstIdx] at h
    split at h
    · next hp =>
      obtain rfl : 0 = i := Option.some.inj h
      simpa using List.isPrefixOf_iff_prefix.mp hp
    · exact absurd h (by simp)
  | cons a t ih =>
    intro i h
    simp only [firstIdx] at h
    split at h
    · next hp =>
      obtain rfl : 0 = i := Option.some.inj h
      simpa using List.isPrefixOf_iff_prefix.mp hp
    · next hp =>
      cases hft : firstIdx pat t with
      | none => rw [hft] at h; simp at h
      | some j =>
        rw [hft] at h
        simp only [Option.map_some'] at h
        obtain rfl : j + 1 = i := Option.some.inj h
        simpa [List.drop_succ_cons] using ih hft

lemma firstIdx_boundary {pat : List Nat} (hpat : pat ≠ [])
    (hnb : ∀ k, k < pat.length → 0 < k →
      pat.drop k ≠ pat.take (pat.length - k)) :
    ∀ (pre rest : List Nat), ¬ pat <:+: pre →
      firstIdx pat (pre ++ (pat ++ rest)) = some pre.length := by
  intro pre
  induction pre with
  | nil =>
    intro rest _
    obtain ⟨p, ps, rfl⟩ : ∃ p ps, pat = p :: ps := by
      cases pat with
      | nil => exact absurd rfl hpat
      | cons p ps => exact ⟨p, ps, rfl⟩
    show firstIdx (p :: ps) ((p :: ps) ++ rest) = some 0
    have hstep : firstIdx (p :: ps) ((p :: ps) ++ rest)
        = if (p :: ps).isPrefixOf ((p :: ps) ++ rest) then some 0
          else (firstIdx (p :: ps) (ps ++ rest)).map (· + 1) := rfl
    have hpos : (p :: ps).isPrefixOf ((p :: ps) ++ rest) = true :=
      List.isPrefixOf_iff_prefix.mpr (List.prefix_append _ _)
    rw [hstep, if_pos hpos]
  | cons a pre' ih =>
    intro rest h1
    have hninfix' : ¬ pat <:+: pre' := fun h => h1 (List.infix_cons h)
    have hnp : ¬ pat.isPrefixOf (a :: (pre' ++ (pat ++ rest))) = true := by
      intro hp
      have hpref : pat <+: (a :: pre') ++ (pat ++ rest) := by
        simpa [List.cons_append] using List.isPrefixOf_iff_prefix.mp hp
      by_cases hlen : pat.length ≤ (a :: pre').length
      · have hpref2 : pat <+: a :: pre' :=
          List.prefix_of_prefix_length_le hpref (List.prefix_append _ _) hlen
        obtain ⟨t, ht⟩ := hpref2
        exact h1 ⟨[], t, by simp [ht]⟩
      · push_neg at hlen
        have h2 : pat = List.take pat.length ((a :: pre') ++ (pat ++ rest)) :=
          List.prefix_iff_eq_take.mp hpref
        rw [List.take_append_eq_append_take,
          List.take_of_length_le (le_of_lt hlen),
          List.take_append_of_le_length
            (by omega : pat.length - (a :: pre').length ≤ pat.length)] at h2
        have h3 : pat.drop (a :: pre').length
            = pat.take (pat.length - (a :: pre').length) := by
          conv_lhs => rw [h2]
          exact List.drop_left _ _
        exact hnb (a :: pre').length hlen (by simp) h3
    have hstep : firstIdx pat ((a :: pre') ++ (pat ++ rest))
        = if pat.isPrefixOf (a :: (pre' ++ (pat ++ rest))) then some 0
          else (firstIdx pat (pre' ++ (pat ++ rest))).map (· + 1) := rfl
    rw [hstep, if_neg hnp, ih rest hninfix']
    rfl

lemma markBegin_ne_nil : markJSONBegin ≠ [] := by decide

lemma markEnd_ne_nil : markJSONEnd ≠ [] := by decide

lemma markBegin_noBorder : ∀ k, k < markJSONBegin.length → 0 < k →
    markJSONBegin.drop k ≠ markJSONBegin.take (markJSONBegin.length - k) := by decide

lemma markEnd_noBorder : ∀ k, k < markJSONEnd.length → 0 < k →
    markJSONEnd.drop k ≠ markJSONEnd.take (markJSONEnd.length - k) := by decide

lemma firstIdx_markBegin (pre rest : List Nat) (h1 : ¬ markJSONBegin <:+: pre) :
    firstIdx markJSONBegin (pre ++ (markJSONBegin ++ rest)) = some pre.length :=
  firstIdx_boundary markBegin_ne_nil markBegin_noBorder pre rest h1

lemma firstIdx_markEnd (pre rest : List Nat) (h1 : ¬ markJSONEnd <:+: pre) :
    firstIdx markJSONEnd (pre ++ (markJSONEnd ++ rest)) = some pre.length :=
  firstIdx_boundary markEnd_ne_nil markEnd_noBorder pre rest h1

lemma infix_snoc_cases {a P : List Nat} {c : Nat} (h : a <:+: P ++ [c]) :
    a <:+: P ∨ a <:+ (P ++ [c]) := by
  obtain ⟨s, t, hst⟩ := h
  rcases t.eq_nil_or_concat with rfl | ⟨t', y, rfl⟩
  · right
    exact ⟨s, by simpa using hst⟩
  · left
    have hst2 : P ++ [c] = ((s ++ a) ++ t') ++ [y] := by
      rw [← hst]; simp [List.concat_eq_append, List.append_assoc]
    obtain ⟨hP, -⟩ := List.append_inj' hst2 rfl
    exact ⟨s, t', by rw [hP]⟩

lemma suffix_ne_nil_getLast? {a b : List Nat} (h : a <:+ b) (ha : a ≠ []) :
    a.getLast? = b.getLast? := by
  obtain ⟨u, rfl⟩ := h
  rcases a.eq_nil_or_concat with rfl | ⟨a', x, rfl⟩
  · exact absurd rfl ha
  · simp only [List.concat_eq_append, ← List.append_assoc, List.getLast?_concat]

lemma markEnd_not_infix_snoc10 {P : List Nat} (h : ¬ markJSONEnd <:+: P) :
    ¬ markJSONEnd <:+: (P ++ [10]) := by
  intro hin
  rcases infix_snoc_cases hin with h' | h'
  · exact h h'
  · have hl := suffix_ne_nil_getLast? h' markEnd_ne_nil
    rw [List.getLast?_concat] at hl
    exact absurd hl (by decide)

lemma parse_begin_eq {buf : List Nat} (hb : firstIdx markJSONBegin buf = none) :
    parse buf = .error .beginMarkerNotFound := by
  unfold parse
  simp only [hb]

lemma parse_empty_eq {buf : List Nat} {i : Nat}
    (hb : firstIdx markJSONBegin buf = some i)
    (hd : buf.drop (i + markJSONBegin.length) = []) :
    parse buf = .error .emptyData := by
  unfold parse
  simp only [hb, hd]

lemma parse_endNone_eq {buf : List Nat} {i b : Nat} {d2 : List Nat}
    (hb : firstIdx markJSONBegin buf = some i)
    (hd : buf.drop (i + markJSONBegin.length) = b :: d2)
    (he : firstIdx markJSONEnd d2 = none) :
    parse buf = .error .endMarkerNotFound := by
  unfold parse
  simp only [hb, hd, he]

lemma parse_endZero_eq {buf : List Nat} {i b : Nat} {d2 : List Nat}
    (hb : firstIdx markJSONBegin buf = some i)
    (hd : buf.drop (i + markJSONBegin.length) = b :: d2)
    (he : firstIdx markJSONEnd d2 = some 0) :
    parse buf = .error .endMarkerNotFound := by
  unfold parse
  simp only [hb, hd, he, if_pos]

lemma parse_ok_eq {buf : List Nat} {i b idx : Nat} {d2 : List Nat}
    (hb : firstIdx markJSONBegin buf = some i)
    (hd : buf.drop (i + markJSONBegin.length) = b :: d2)
    (he : firstIdx markJSONEnd d2 = some idx)
    (hidx : idx ≠ 0) :
    parse buf = .ok (d2.take (idx - 1)) := by
  unfold parse
  simp only [hb, hd, he, if_neg hidx]

/-- C1: for every input of the form
`pre ++ markJSONBegin ++ [newline] ++ payload ++ [newline] ++ markJSONEnd ++ tl`
where `pre` contains no occurrence of the begin marker, the payload is
non-empty, and neither `[newline] ++ payload` nor `payload` contains the
end marker, `parse` succeeds and returns exactly `payload` — the byte-exact
round trip when the result is re-wrapped with the markers and the trimmed
newlines. -/
theorem parse_roundtrip (pre payload tl : List Nat)
    (h1 : ¬ markJSONBegin <:+: pre)
    (h2 : payload ≠ [])
    (h3 : ¬ markJSONEnd <:+: (10 :: payload))
    (h4 : ¬ markJSONEnd <:+: payload) :
    parse (pre ++ (markJSONBegin ++ (10 :: (payload ++ (10 :: (markJSONEnd ++ tl))))))
      = .ok payload := by
  have hb := firstIdx_markBegin pre (10 :: (payload ++ (10 :: (markJSONEnd ++ tl)))) h1
  have hd : (pre ++ (markJSONBegin ++ (10 :: (payload ++ (10 :: (markJSONEnd ++ tl)))))).drop
      (pre.length + markJSONBegin.length)
      = 10 :: (payload ++ (10 :: (markJSONEnd ++ tl))) := by
    rw [← List.append_assoc]
    exact List.drop_left' (by simp)
  have he : firstIdx markJSONEnd (payload ++ (10 :: (markJSONEnd ++ tl)))
      = some (payload.length + 1) := by
    have hmain := firstIdx_markEnd (payload ++ [10]) tl (markEnd_not_infix_snoc10 h4)
    simpa [List.append_assoc] using hmain
  rw [parse_ok_eq hb hd he (by omega)]
  congr 1
  rw [Nat.add_sub_cancel]
  exact List.take_left' rfl

/-- Witness for C1 at a concrete input: prefix is the byte `p`, payload is
the two bytes `jk`, trailing text is the byte `s`. -/
theorem parse_roundtrip_witness :
    parse ([112] ++ (markJSONBegin ++ (10 :: ([106, 107] ++ (10 :: (markJSONEnd ++ [115]))))))
      = .ok [106, 107] :=
  parse_roundtrip [112] [106, 107] [115] (by decide) (by decide) (by decide) (by decide)

/-- C3 counterexample: on the input consisting of the begin marker alone,
the begin marker occurs, the remainder after it is empty, so the end
marker is absent from the trimmed remainder — the claim's condition for a
marker-not-found failure holds — yet `parse` fails with the empty-data
error, not with a marker-not-found error. -/
theorem parse_marker_claim_counterexample :
    parse markJSONBegin = .error ParseErr.emptyData
    ∧ firstIdx markJSONBegin markJSONBegin = some 0
    ∧ firstIdx markJSONEnd
        ((markJSONBegin.drop (0 + markJSONBegin.length)).drop 1) = none :=
  ⟨rfl, rfl, rfl⟩

/-- C3 (amended): `parse` fails with a marker-not-found error exactly when
the begin marker does not occur, or the begin marker occurs, the remainder
after it is non-empty, and in that remainder after the one-byte trim the
end marker is absent or occurs at index 0.  (The amendment adds the
non-emptiness of the untrimmed remainder, which the code checks first and
reports as a different error.) -/
theorem parse_marker_not_found_iff (buf : List Nat) :
    (parse buf = .error .beginMarkerNotFound ∨ parse buf = .error .endMarkerNotFound)
    ↔ (firstIdx markJSONBegin buf = none
       ∨ ∃ i, firstIdx markJSONBegin buf = some i
          ∧ buf.drop (i + markJSONBegin.length) ≠ []
          ∧ (firstIdx markJSONEnd ((buf.drop (i + markJSONBegin.length)).drop 1) = none
             ∨ firstIdx markJSONEnd ((buf.drop (i + markJSONBegin.length)).drop 1)
                = some 0)) := by
  cases hb : firstIdx markJSONBegin buf with
  | none => simp [parse_begin_eq hb, hb]
  | some i =>
    cases hd : buf.drop (i + markJSONBegin.length) with
    | nil =>
      rw [parse_empty_eq hb hd]
      have hle : buf.length ≤ i + markJSONBegin.length := List.drop_eq_nil_iff.mp hd
      simp [hb, hd, hle]
    | cons b d2 =>
      have hlt : i + markJSONBegin.length < buf.length := by
        by_contra hcon
        push_neg at hcon
        rw [List.drop_eq_nil_of_le hcon] at hd
        exact absurd hd (by simp)
      have hd1 : buf.drop (i + markJSONBegin.length + 1) = d2 := by
        have hsplit : (buf.drop (i + markJSONBegin.length)).drop 1
            = buf.drop (i + markJSONBegin.length + 1) := List.drop_drop _ _ _
        rw [← hsplit, hd]
        rfl
      cases he : firstIdx markJSONEnd d2 with
      | none =>
        rw [parse_endNone_eq hb hd he]
        simp [hb, hd, hd1, hlt, he]
      | some idx =>
        by_cases hidx : idx = 0
        · subst hidx
          rw [parse_endZero_eq hb hd he]
          simp [hb, hd, hd1, hlt, he]
        · rw [parse_ok_eq hb hd he hidx]
          simp [hb, hd, hd1, hlt, he, hidx]

/-- C4 counterexample: on the input `markJSONBegin ++ "aa" ++ markJSONEnd`
the end marker occurs at index 1 of the trimmed remainder and `parse`
succeeds with the empty byte slice — so a successful extraction can be
empty; and on `markJSONBegin ++ "\n"` the remainder is empty after the
trim yet the error is end-marker-not-found, not empty-payload. -/
theorem parse_empty_claim_counterexample :
    parse (markJSONBegin ++ ([97, 97] ++ markJSONEnd)) = .ok []
    ∧ parse (markJSONBegin ++ [10]) = .error ParseErr.endMarkerNotFound :=
  ⟨rfl, rfl⟩

/-- C4 (amended): `parse` fails with the empty-payload error exactly when
the begin marker occurs and the remainder after it is empty — the check
happens before the one-byte newline trim, and a successful result can be
the empty slice (see the counterexample). -/
theorem parse_emptyData_iff (buf : List Nat) :
    parse buf = .error .emptyData
    ↔ ∃ i, firstIdx markJSONBegin buf = some i
        ∧ buf.drop (i + markJSONBegin.length) = [] := by
  cases hb : firstIdx markJSONBegin buf with
  | none => simp [parse_begin_eq hb, hb]
  | some i =>
    cases hd : buf.drop (i + markJSONBegin.length) with
    | nil =>
      rw [parse_empty_eq hb hd]
      have hle : buf.length ≤ i + markJSONBegin.length := List.drop_eq_nil_iff.mp hd
      simp [hb, hd, hle]
    | cons b d2 =>
      have hlt : i + markJSONBegin.length < buf.length := by
        by_contra hcon
        push_neg at hcon
        rw [List.drop_eq_nil_of_le hcon] at hd
        exact absurd hd (by simp)
      cases he : firstIdx markJSONEnd d2 with
      | none =>
        rw [parse_endNone_eq hb hd he]
        simp [hb, hd, hlt]
      | some idx =>
        by_cases hidx : idx = 0
        · subst hidx
          rw [parse_endZero_eq hb hd he]
          simp [hb, hd, hlt]
        · rw [parse_ok_eq hb hd he hidx]
          simp [hb, hd, hlt]

/-- C8: whenever `parse` succeeds, the input decomposes as
`pre ++ markJSONBegin ++ [b] ++ out ++ [c] ++ markJSONEnd ++ post` for
some single bytes `b` and `c` — exactly one byte is removed after the
begin marker and exactly one byte before the end marker, whether or not
those bytes are newlines. -/
theorem parse_ok_decomp (buf out : List Nat) (h : parse buf = .ok out) :
    ∃ pre b c post,
      buf = pre ++ (markJSONBegin ++ (b :: (out ++ (c :: (markJSONEnd ++ post))))) := by
  cases hb : firstIdx markJSONBegin buf with
  | none => rw [parse_begin_eq hb] at h; simp at h
  | some i =>
    cases hd : buf.drop (i + markJSONBegin.length) with
    | nil => rw [parse_empty_eq hb hd] at h; simp at h
    | cons b d2 =>
      cases he : firstIdx markJSONEnd d2 with
      | none => rw [parse_endNone_eq hb hd he] at h; simp at h
      | some idx =>
        by_cases hidx : idx = 0
        · subst hidx
          rw [parse_endZero_eq hb hd he] at h
          simp at h
        · rw [parse_ok_eq hb hd he hidx] at h
          have hout : d2.take (idx - 1) = out := by simpa using h
          have hpb : markJSONBegin <+: buf.drop i := firstIdx_some_prefix hb
          have hpe : markJSONEnd <+: d2.drop idx := firstIdx_some_prefix he
          have h14 : markJSONEnd.length ≤ (d2.drop idx).length :=
            List.IsPrefix.length_le hpe
          rw [List.length_drop] at h14
          have hlen : idx < d2.length := by
            have hpos : (0:Nat) < markJSONEnd.length := by decide
            omega
          obtain ⟨post, hpost⟩ := hpe
          obtain ⟨t0, ht0⟩ := hpb
          have hdata : t0 = b :: d2 := by
            have h1 : (buf.drop i).drop markJSONBegin.length
                = buf.drop (i + markJSONBegin.length) := List.drop_drop _ _ _
            rw [← h1, ← ht0, List.drop_left] at hd
            exact hd
          have htake : d2.take idx = d2.take (idx - 1) ++ [d2.get ⟨idx - 1, by omega⟩] := by
            have hidx1 : idx = (idx - 1) + 1 := by omega
            conv_lhs => rw [hidx1]
            rw [List.take_succ, List.getElem?_eq_getElem (by omega)]
            rfl
          have hd2 : ∃ c, d2 = out ++ (c :: (markJSONEnd ++ post)) := by
            refine ⟨d2.get ⟨idx - 1, by omega⟩, ?_⟩
            conv_lhs => rw [← List.take_append_drop idx d2]
            rw [← hpost, htake, hout]
            simp only [List.append_assoc, List.singleton_append]
          obtain ⟨c, hd2⟩ := hd2
          refine ⟨buf.take i, b, c, post, ?_⟩
          conv_lhs => rw [← List.take_append_drop i buf]
          rw [← ht0, hdata, hd2]

/-- Witness for C8 at a concrete input: the trimmed bytes are `a` (0x61),
not newlines, and the extracted payload is empty. -/
theorem parse_ok_decomp_witness :
    ∃ pre b c post,
      (markJSONBegin ++ ([97, 97] ++ markJSONEnd))
        = pre ++ (markJSONBegin ++ (b :: ([] ++ (c :: (markJSONEnd ++ post))))) :=
  parse_ok_decomp (markJSONBegin ++ ([97, 97] ++ markJSONEnd)) [] (by rfl)

/-- C10: `parse` is total and never slices out of bounds: the checked
variant, in which every Go slice expression is bounds-checked and `none`
models a panic, agrees with `parse` on every input. -/
theorem parseChecked_total (buf : List Nat) : parseChecked buf = some (parse buf) := by
  cases hb : firstIdx markJSONBegin buf with
  | none =>
    rw [parse_begin_eq hb]
    simp only [parseChecked, hb]
  | some i =>
    cases hd : buf.drop (i + markJSONBegin.length) with
    | nil =>
      rw [parse_empty_eq hb hd]
      simp only [parseChecked, hb, hd]
      simp
    | cons b d2 =>
      have hsf : goSliceFrom (b :: d2) 1 = some d2 := by
        simp [goSliceFrom]
      cases he : firstIdx markJSONEnd d2 with
      | none =>
        rw [parse_endNone_eq hb hd he]
        simp only [parseChecked, hb, hd, hsf, he]
        simp
      | some idx =>
        by_cases hidx : idx = 0
        · subst hidx
          rw [parse_endZero_eq hb hd he]
          simp only [parseChecked, hb, hd, hsf, he]
          simp
        · rw [parse_ok_eq hb hd he hidx]
          have hpe : markJSONEnd <+: d2.drop idx := firstIdx_some_prefix he
          have h14 : markJSONEnd.length ≤ (d2.drop idx).length :=
            List.IsPrefix.length_le hpe
          rw [List.length_drop] at h14
          have hle : idx ≤ d2.length := by
            have hpos : (0:Nat) < markJSONEnd.length := by decide
            omega
          have hup : goSliceUpto d2 ((idx : Int) - 1) = some (d2.take (idx - 1)) := by
            unfold goSliceUpto
            rw [if_pos ⟨by omega, by omega⟩]
            congr 2
            omega
          simp only [parseChecked, hb, hd, hsf, he, hup]
          simp [hidx]

/-- C2: the derived step produces exactly one record per tuple, in the
same order, and the positional mapping is fixed: 0=Name, 1=Operands,
2=Encoding, 3=OpCode, 4=Metadata. -/
theorem genInstructions_positional (l : List InstTuple) :
    (genInstructions l).length = l.length
    ∧ ∀ (i : Nat) (t : InstTuple), l[i]? = some t →
        (genInstructions l)[i]?
          = some ({ Name := t.el0, Operands := t.el1, Encoding := t.el2,
                    OpCode := t.el3, Metadata := t.el4 } : X86Instruction) := by
  constructor
  · simp [genInstructions]
  · intro i t ht
    simp [genInstructions, List.getElem?_map, ht]

/-- Witness for C2 at a concrete one-tuple list. -/
theorem genInstructions_positional_witness :
    (genInstructions [⟨"mov", "r,r", "RM", "0x89", "x86"⟩])[0]?
      = some ({ Name := "mov", Operands := "r,r", Encoding := "RM",
                OpCode := "0x89", Metadata := "x86" } : X86Instruction) :=
  (genInstructions_positional [⟨"mov", "r,r", "RM", "0x89", "x86"⟩]).2 0
    ⟨"mov", "r,r", "RM", "0x89", "x86"⟩ rfl

lemma asStr_cases : DecCases asStr isStr := by
  intro j
  cases j <;> simp [asStr, isStr]

lemma exceptMapList_cases {f : Json → Except DecodeErr α} {p : Json → Bool}
    (h : DecCases f p) (xs : List Json) :
    (∃ as, exceptMapList f xs = .ok as ∧ xs.all p = true)
    ∨ (exceptMapList f xs = .error .schemaMismatch ∧ xs.all p = false) := by
  induction xs with
  | nil => exact Or.inl ⟨[], rfl, rfl⟩
  | cons x xs ih =>
    rcases h x with ⟨a, hfa, hpa⟩ | ⟨hfa, hpa⟩
    · rcases ih with ⟨as, hfas, hpas⟩ | ⟨hfas, hpas⟩
      · exact Or.inl ⟨a :: as, by simp [exceptMapList, hfa, hfas], by simp [hpa, hpas]⟩
      · exact Or.inr ⟨by simp [exceptMapList, hfa, hfas], by simp [hpa, hpas]⟩
    · exact Or.inr ⟨by simp [exceptMapList, hfa], by simp [hpa]⟩

lemma decodeJsonList_cases {f : Json → Except DecodeErr α} {p : Json → Bool}
    (h : DecCases f p) : DecCases (decodeJsonList f) (confList p) := by
  intro j
  cases j with
  | arr xs =>
    rcases exceptMapList_cases h xs with ⟨as, h1, h2⟩ | ⟨h1, h2⟩
    · exact Or.inl ⟨as, h1, h2⟩
    · exact Or.inr ⟨h1, h2⟩
  | null => exact Or.inr ⟨rfl, rfl⟩
  | bool b => exact Or.inr ⟨rfl, rfl⟩
  | num n => exact Or.inr ⟨rfl, rfl⟩
  | str s => exact Or.inr ⟨rfl, rfl⟩
  | obj kvs => exact Or.inr ⟨rfl, rfl⟩

lemma reqField_cases {f : Json → Except DecodeErr α} {p : Json → Bool}
    (h : DecCases f p) (k : String) (kvs : List (String × Json)) :
    (∃ a, reqField k kvs f = .ok a ∧ confKey k kvs p = true)
    ∨ (reqField k kvs f = .error .schemaMismatch ∧ confKey k kvs p = false) := by
  unfold reqField confKey
  cases hl : lookupKey k kvs with
  | none => exact Or.inr ⟨rfl, rfl⟩
  | some v =>
    rcases h v with ⟨a, h1, h2⟩ | ⟨h1, h2⟩
    · exact Or.inl ⟨a, h1, h2⟩
    · exact Or.inr ⟨h1, h2⟩

lemma decodeExtension_cases : DecCases decodeExtension confExtension := by
  intro j
  cases j with
  | obj kvs =>
    rcases reqField_cases asStr_cases "name" kvs with ⟨s, hs, hc⟩ | ⟨hs, hc⟩
    · exact Or.inl ⟨⟨s⟩, by simp [decodeExtension, hs], by simp [confExtension, hc]⟩
    · exact Or.inr ⟨by simp [decodeExtension, hs], by simp [confExtension, hc]⟩
  | null => exact Or.inr ⟨rfl, rfl⟩
  | bool b => exact Or.inr ⟨rfl, rfl⟩
  | num n => exact Or.inr ⟨rfl, rfl⟩
  | str s => exact Or.inr ⟨rfl, rfl⟩
  | arr xs => exact Or.inr ⟨rfl, rfl⟩

lemma decodeAttribute_cases : DecCases decodeAttribute confAttribute := by
  intro j
  cases j with
  | obj kvs =>
    rcases reqField_cases asStr_cases "name" kvs with ⟨s1, h1, hc1⟩ | ⟨h1, hc1⟩
    · rcases reqField_cases asStr_cases "type" kvs with ⟨s2, h2, hc2⟩ | ⟨h2, hc2⟩
      · rcases reqField_cases asStr_cases "doc" kvs with ⟨s3, h3, hc3⟩ | ⟨h3, hc3⟩
        · exact Or.inl ⟨⟨s1, s2, s3⟩, by simp [decodeAttribute, h1, h2, h3],
            by simp [confAttribute, hc1, hc2, hc3]⟩
        · exact Or.inr ⟨by simp [decodeAttribute, h1, h2, h3],
            by simp [confAttribute, hc3]⟩
      · exact Or.inr ⟨by simp [decodeAttribute, h1, h2], by simp [confAttribute, hc2]⟩
    · exact Or.inr ⟨by simp [decodeAttribute, h1], by simp [confAttribute, hc1]⟩
  | null => exact Or.inr ⟨rfl, rfl⟩
  | bool b => exact Or.inr ⟨rfl, rfl⟩
  | num n => exact Or.inr ⟨rfl, rfl⟩
  | str s => exact Or.inr ⟨rfl, rfl⟩
  | arr xs => exact Or.inr ⟨rfl, rfl⟩

lemma decodeSpecialReg_cases : DecCases decodeSpecialReg confSpecialReg := by
  intro j
  cases j with
  | obj kvs =>
    rcases reqField_cases asStr_cases "name" kvs with ⟨s1, h1, hc1⟩ | ⟨h1, hc1⟩
    · rcases reqField_cases asStr_cases "group" kvs with ⟨s2, h2, hc2⟩ | ⟨h2, hc2⟩
      · rcases reqField_cases asStr_cases "doc" kvs with ⟨s3, h3, hc3⟩ | ⟨h3, hc3⟩
        · exact Or.inl ⟨⟨s1, s2, s3⟩, by simp [decodeSpecialReg, h1, h2, h3],
            by simp [confSpecialReg, hc1, hc2, hc3]⟩
        · exact Or.inr ⟨by simp [decodeSpecialReg, h1, h2, h3],
            by simp [confSpecialReg, hc3]⟩
      · exact Or.inr ⟨by simp [decodeSpecialReg, h1, h2], by simp [confSpecialReg, hc2]⟩
    · exact Or.inr ⟨by simp [decodeSpecialReg, h1], by simp [confSpecialReg, hc1]⟩
  | null => exact Or.inr ⟨rfl, rfl⟩
  | bool b => exact Or.inr ⟨rfl, rfl⟩
  | num n => exact Or.inr ⟨rfl, rfl⟩
  | str s => exact Or.inr ⟨rfl, rfl⟩
  | arr xs => exact Or.inr ⟨rfl, rfl⟩

lemma decodeShortcut_cases : DecCases decodeShortcut confShortcut := by
  intro j
  cases j with
  | obj kvs =>
    rcases reqField_cases asStr_cases "name" kvs with ⟨s1, h1, hc1⟩ | ⟨h1, hc1⟩
    · rcases reqField_cases asStr_cases "expand" kvs with ⟨s2, h2, hc2⟩ | ⟨h2, hc2⟩
      · exact Or.inl ⟨⟨s1, s2⟩, by simp [decodeShortcut, h1, h2],
          by simp [confShortcut, hc1, hc2]⟩
      · exact Or.inr ⟨by simp [decodeShortcut, h1, h2], by simp [confShortcut, hc2]⟩
    · exact Or.inr ⟨by simp [decodeShortcut, h1], by simp [confShortcut, hc1]⟩
  | null => exact Or.inr ⟨rfl, rfl⟩
  | bool b => exact Or.inr ⟨rfl, rfl⟩
  | num n => exact Or.inr ⟨rfl, rfl⟩
  | str s => exact Or.inr ⟨rfl, rfl⟩
  | arr xs => exact Or.inr ⟨rfl, rfl⟩

lemma decodeAnyField_cases (kvs : List (String × Json)) :
    (∃ a, decodeAnyField kvs = .ok a ∧ confAnyField kvs = true)
    ∨ (decodeAnyField kvs = .error .schemaMismatch ∧ confAnyField kvs = false) := by
  unfold decodeAnyField confAnyField
  cases hl : lookupKey "any" kvs with
  | none => exact Or.inl ⟨none, rfl, rfl⟩
  | some v =>
    cases v with
    | str s => exact Or.inl ⟨some s, rfl, rfl⟩
    | null => exact Or.inr ⟨rfl, rfl⟩
    | bool b => exact Or.inr ⟨rfl, rfl⟩
    | num n => exact Or.inr ⟨rfl, rfl⟩
    | arr xs => exact Or.inr ⟨rfl, rfl⟩
    | obj kvs2 => exact Or.inr ⟨rfl, rfl⟩

lemma decodeRegisterData_cases : DecCases decodeRegisterData confRegisterData := by
  intro j
  cases j with
  | obj kvs =>
    rcases reqField_cases (decodeJsonList_cases asStr_cases) "names" kvs with ⟨s1, h1, hc1⟩ | ⟨h1, hc1⟩
    · rcases reqField_cases asStr_cases "kind" kvs with ⟨s2, h2, hc2⟩ | ⟨h2, hc2⟩
      · rcases decodeAnyField_cases kvs with ⟨s3, h3, hc3⟩ | ⟨h3, hc3⟩
        · exact Or.inl ⟨⟨s1, s2, s3⟩, by simp [decodeRegisterData, h1, h2, h3],
            by simp [confRegisterData, hc1, hc2, hc3]⟩
        · exact Or.inr ⟨by simp [decodeRegisterData, h1, h2, h3],
            by simp [confRegisterData, hc3]⟩
      · exact Or.inr ⟨by simp [decodeRegisterData, h1, h2], by simp [confRegisterData, hc2]⟩
    · exact Or.inr ⟨by simp [decodeRegisterData, h1], by simp [confRegisterData, hc1]⟩
  | null => exact Or.inr ⟨rfl, rfl⟩
  | bool b => exact Or.inr ⟨rfl, rfl⟩
  | num n => exact Or.inr ⟨rfl, rfl⟩
  | str s => exact Or.inr ⟨rfl, rfl⟩
  | arr xs => exact Or.inr ⟨rfl, rfl⟩

lemma decodeOptRegData_cases (o : Option Json) :
    (∃ a, decodeOptRegData o = .ok a ∧ confOptRegData o = true)
    ∨ (decodeOptRegData o = .error .schemaMismatch ∧ confOptRegData o = false) := by
  cases o with
  | none => exact Or.inl ⟨none, rfl, rfl⟩
  | some v =>
    cases v with
    | null => exact Or.inl ⟨none, rfl, rfl⟩
    | bool b =>
      rcases decodeRegisterData_cases (Json.bool b) with ⟨d, hd, hcd⟩ | ⟨hd, hcd⟩
      · exact Or.inl ⟨some d, by simp [decodeOptRegData, hd], hcd⟩
      · exact Or.inr ⟨by simp [decodeOptRegData, hd], hcd⟩
    | num n =>
      rcases decodeRegisterData_cases (Json.num n) with ⟨d, hd, hcd⟩ | ⟨hd, hcd⟩
      · exact Or.inl ⟨some d, by simp [decodeOptRegData, hd], hcd⟩
      · exact Or.inr ⟨by simp [decodeOptRegData, hd], hcd⟩
    | str s =>
      rcases decodeRegisterData_cases (Json.str s) with ⟨d, hd, hcd⟩ | ⟨hd, hcd⟩
      · exact Or.inl ⟨some d, by simp [decodeOptRegData, hd], hcd⟩
      · exact Or.inr ⟨by simp [decodeOptRegData, hd], hcd⟩
    | arr xs =>
      rcases decodeRegisterData_cases (Json.arr xs) with ⟨d, hd, hcd⟩ | ⟨hd, hcd⟩
      · exact Or.inl ⟨some d, by simp [decodeOptRegData, hd], hcd⟩
      · exact Or.inr ⟨by simp [decodeOptRegData, hd], hcd⟩
    | obj kvs =>
      rcases decodeRegisterData_cases (Json.obj kvs) with ⟨d, hd, hcd⟩ | ⟨hd, hcd⟩
      · exact Or.inl ⟨some d, by simp [decodeOptRegData, hd], hcd⟩
      · exact Or.inr ⟨by simp [decodeOptRegData, hd], hcd⟩

lemma decodeRegister_cases : DecCases decodeRegister confRegister := by
  intro j
  cases j with
  | obj kvs =>
    rcases decodeOptRegData_cases (lookupKey "bnd" kvs) with ⟨v1, h1, hc1⟩ | ⟨h1, hc1⟩
    · rcases decodeOptRegData_cases (lookupKey "creg" kvs) with ⟨v2, h2, hc2⟩ | ⟨h2, hc2⟩
      · rcases decodeOptRegData_cases (lookupKey "dreg" kvs) with ⟨v3, h3, hc3⟩ | ⟨h3, hc3⟩
        · rcases decodeOptRegData_cases (lookupKey "k" kvs) with ⟨v4, h4, hc4⟩ | ⟨h4, hc4⟩
          · rcases decodeOptRegData_cases (lookupKey "mm" kvs) with ⟨v5, h5, hc5⟩ | ⟨h5, hc5⟩
            · rcases decodeOptRegData_cases (lookupKey "r16" kvs) with ⟨v6, h6, hc6⟩ | ⟨h6, hc6⟩
              · rcases decodeOptRegData_cases (lookupKey "r32" kvs) with ⟨v7, h7, hc7⟩ | ⟨h7, hc7⟩
                · rcases decodeOptRegData_cases (lookupKey "r64" kvs) with ⟨v8, h8, hc8⟩ | ⟨h8, hc8⟩
                  · rcases decodeOptRegData_cases (lookupKey "r8" kvs) with ⟨v9, h9, hc9⟩ | ⟨h9, hc9⟩
                    · rcases decodeOptRegData_cases (lookupKey "r8hi" kvs) with ⟨v10, h10, hc10⟩ | ⟨h10, hc10⟩
                      · rcases decodeOptRegData_cases (lookupKey "rxx" kvs) with ⟨v11, h11, hc11⟩ | ⟨h11, hc11⟩
                        · rcases decodeOptRegData_cases (lookupKey "sreg" kvs) with ⟨v12, h12, hc12⟩ | ⟨h12, hc12⟩
                          · rcases decodeOptRegData_cases (lookupKey "st" kvs) with ⟨v13, h13, hc13⟩ | ⟨h13, hc13⟩
                            · rcases decodeOptRegData_cases (lookupKey "tmm" kvs) with ⟨v14, h14, hc14⟩ | ⟨h14, hc14⟩
                              · rcases decodeOptRegData_cases (lookupKey "xmm" kvs) with ⟨v15, h15, hc15⟩ | ⟨h15, hc15⟩
                                · rcases decodeOptRegData_cases (lookupKey "ymm" kvs) with ⟨v16, h16, hc16⟩ | ⟨h16, hc16⟩
                                  · rcases decodeOptRegData_cases (lookupKey "zmm" kvs) with ⟨v17, h17, hc17⟩ | ⟨h17, hc17⟩
                                    · exact Or.inl ⟨⟨v1, v2, v3, v4, v5, v6, v7, v8, v9, v10, v11, v12, v13, v14, v15, v16, v17⟩, by simp [decodeRegister, h1, h2, h3, h4, h5, h6, h7, h8, h9, h10, h11, h12, h13, h14, h15, h16, h17],
                                        by simp [confRegister, hc1, hc2, hc3, hc4, hc5, hc6, hc7, hc8, hc9, hc10, hc11, hc12, hc13, hc14, hc15, hc16, hc17]⟩
                                    · exact Or.inr ⟨by simp [decodeRegister, h1, h2, h3, h4, h5, h6, h7, h8, h9, h10, h11, h12, h13, h14, h15, h16, h17], by simp [confRegister, hc17]⟩
                                  · exact Or.inr ⟨by simp [decodeRegister, h1, h2, h3, h4, h5, h6, h7, h8, h9, h10, h11, h12, h13, h14, h15, h16], by simp [confRegister, hc16]⟩
                                · exact Or.inr ⟨by simp [decodeRegister, h1, h2, h3, h4, h5, h6, h7, h8, h9, h10, h11, h12, h13, h14, h15], by simp [confRegister, hc15]⟩
                              · exact Or.inr ⟨by simp [decodeRegister, h1, h2, h3, h4, h5, h6, h7, h8, h9, h10, h11, h12, h13, h14], by simp [confRegister, hc14]⟩
                            · exact Or.inr ⟨by simp [decodeRegister, h1, h2, h3, h4, h5, h6, h7, h8, h9, h10, h11, h12, h13], by simp [confRegister, hc13]⟩
                          · exact Or.inr ⟨by simp [decodeRegister, h1, h2, h3, h4, h5, h6, h7, h8, h9, h10, h11, h12], by simp [confRegister, hc12]⟩
                        · exact Or.inr ⟨by simp [decodeRegister, h1, h2, h3, h4, h5, h6, h7, h8, h9, h10, h11], by simp [confRegister, hc11]⟩
                      · exact Or.inr ⟨by simp [decodeRegister, h1, h2, h3, h4, h5, h6, h7, h8, h9, h10], by simp [confRegister, hc10]⟩
                    · exact Or.inr ⟨by simp [decodeRegister, h1, h2, h3, h4, h5, h6, h7, h8, h9], by simp [confRegister, hc9]⟩
                  · exact Or.inr ⟨by simp [decodeRegister, h1, h2, h3, h4, h5, h6, h7, h8], by simp [confRegister, hc8]⟩
                · exact Or.inr ⟨by simp [decodeRegister, h1, h2, h3, h4, h5, h6, h7], by simp [confRegister, hc7]⟩
              · exact Or.inr ⟨by simp [decodeRegister, h1, h2, h3, h4, h5, h6], by simp [confRegister, hc6]⟩
            · exact Or.inr ⟨by simp [decodeRegister, h1, h2, h3, h4, h5], by simp [confRegister, hc5]⟩
          · exact Or.inr ⟨by simp [decodeRegister, h1, h2, h3, h4], by simp [confRegister, hc4]⟩
        · exact Or.inr ⟨by simp [decodeRegister, h1, h2, h3], by simp [confRegister, hc3]⟩
      · exact Or.inr ⟨by simp [decodeRegister, h1, h2], by simp [confRegister, hc2]⟩
    · exact Or.inr ⟨by simp [decodeRegister, h1], by simp [confRegister, hc1]⟩
  | null => exact Or.inr ⟨rfl, rfl⟩
  | bool b => exact Or.inr ⟨rfl, rfl⟩
  | num n => exact Or.inr ⟨rfl, rfl⟩
  | str s => exact Or.inr ⟨rfl, rfl⟩
  | arr xs => exact Or.inr ⟨rfl, rfl⟩

lemma decodeInstTuple_cases : DecCases decodeInstTuple confInstTuple := by
  intro j
  cases j with
  | arr xs =>
    rcases xs with _ | ⟨j0, _ | ⟨j1, _ | ⟨j2, _ | ⟨j3, _ | ⟨j4, _ | ⟨j5, t⟩⟩⟩⟩⟩⟩
    · exact Or.inr ⟨rfl, by simp [confInstTuple]⟩
    · exact Or.inr ⟨rfl, by simp [confInstTuple]⟩
    · exact Or.inr ⟨rfl, by simp [confInstTuple]⟩
    · exact Or.inr ⟨rfl, by simp [confInstTuple]⟩
    · exact Or.inr ⟨rfl, by simp [confInstTuple]⟩
    · rcases asStr_cases j0 with ⟨s0, h0, hc0⟩ | ⟨h0, hc0⟩
      · rcases asStr_cases j1 with ⟨s1, h1, hc1⟩ | ⟨h1, hc1⟩
        · rcases asStr_cases j2 with ⟨s2, h2, hc2⟩ | ⟨h2, hc2⟩
          · rcases asStr_cases j3 with ⟨s3, h3, hc3⟩ | ⟨h3, hc3⟩
            · rcases asStr_cases j4 with ⟨s4, h4, hc4⟩ | ⟨h4, hc4⟩
              · exact Or.inl ⟨⟨s0, s1, s2, s3, s4⟩,
                  by simp [decodeInstTuple, h0, h1, h2, h3, h4],
                  by simp [confInstTuple, hc0, hc1, hc2, hc3, hc4]⟩
              · exact Or.inr ⟨by simp [decodeInstTuple, h0, h1, h2, h3, h4],
                  by simp [confInstTuple, hc4]⟩
            · exact Or.inr ⟨by simp [decodeInstTuple, h0, h1, h2, h3],
                by simp [confInstTuple, hc3]⟩
          · exact Or.inr ⟨by simp [decodeInstTuple, h0, h1, h2],
              by simp [confInstTuple, hc2]⟩
        · exact Or.inr ⟨by simp [decodeInstTuple, h0, h1],
            by simp [confInstTuple, hc1]⟩
      · exact Or.inr ⟨by simp [decodeInstTuple, h0], by simp [confInstTuple, hc0]⟩
    · exact Or.inr ⟨rfl, by simp [confInstTuple]⟩
  | null => exact Or.inr ⟨rfl, rfl⟩
  | bool b => exact Or.inr ⟨rfl, rfl⟩
  | num n => exact Or.inr ⟨rfl, rfl⟩
  | str s => exact Or.inr ⟨rfl, rfl⟩
  | obj kvs => exact Or.inr ⟨rfl, rfl⟩

lemma decodeInstructions_cases (kvs : List (String × Json)) :
    (∃ a, decodeInstructions kvs = .ok a ∧ confInstructions kvs = true)
    ∨ (decodeInstructions kvs = .error .schemaMismatch ∧ confInstructions kvs = false) := by
  unfold decodeInstructions confInstructions
  cases hl : lookupKey "instructions" kvs with
  | none => exact Or.inl ⟨[], rfl, rfl⟩
  | some v =>
    rcases decodeJsonList_cases decodeInstTuple_cases v with ⟨a, h1, h2⟩ | ⟨h1, h2⟩
    · exact Or.inl ⟨a, h1, h2⟩
    · exact Or.inr ⟨h1, h2⟩

lemma decodeX86_cases : DecCases decodeX86 conformsX86 := by
  intro j
  cases j with
  | obj kvs =>
    rcases reqField_cases (decodeJsonList_cases asStr_cases) "architectures" kvs
      with ⟨v1, h1, hc1⟩ | ⟨h1, hc1⟩
    · rcases reqField_cases (decodeJsonList_cases decodeExtension_cases) "extensions" kvs
        with ⟨v2, h2, hc2⟩ | ⟨h2, hc2⟩
      · rcases reqField_cases (decodeJsonList_cases decodeAttribute_cases) "attributes" kvs
          with ⟨v3, h3, hc3⟩ | ⟨h3, hc3⟩
        · rcases reqField_cases (decodeJsonList_cases decodeSpecialReg_cases) "specialRegs" kvs
            with ⟨v4, h4, hc4⟩ | ⟨h4, hc4⟩
          · rcases reqField_cases (decodeJsonList_cases decodeShortcut_cases) "shortcuts" kvs
              with ⟨v5, h5, hc5⟩ | ⟨h5, hc5⟩
            · rcases reqField_cases decodeRegister_cases "registers" kvs
                with ⟨v6, h6, hc6⟩ | ⟨h6, hc6⟩
              · rcases decodeInstructions_cases kvs with ⟨v7, h7, hc7⟩ | ⟨h7, hc7⟩
                · exact Or.inl ⟨⟨v1, v2, v3, v4, v5, v6, v7⟩,
                    by simp [decodeX86, combineX86, h1, h2, h3, h4, h5, h6, h7],
                    by simp [conformsX86, hc1, hc2, hc3, hc4, hc5, hc6, hc7]⟩
                · exact Or.inr ⟨by simp [decodeX86, combineX86, h1, h2, h3, h4, h5, h6, h7],
                    by simp [conformsX86, hc7]⟩
              · exact Or.inr ⟨by simp [decodeX86, combineX86, h1, h2, h3, h4, h5, h6],
                  by simp [conformsX86, hc6]⟩
            · exact Or.inr ⟨by simp [decodeX86, combineX86, h1, h2, h3, h4, h5],
                by simp [conformsX86, hc5]⟩
          · exact Or.inr ⟨by simp [decodeX86, combineX86, h1, h2, h3, h4],
              by simp [conformsX86, hc4]⟩
        · exact Or.inr ⟨by simp [decodeX86, combineX86, h1, h2, h3],
            by simp [conformsX86, hc3]⟩
      · exact Or.inr ⟨by simp [decodeX86, combineX86, h1, h2],
          by simp [conformsX86, hc2]⟩
    · exact Or.inr ⟨by simp [decodeX86, combineX86, h1], by simp [conformsX86, hc1]⟩
  | null => exact Or.inr ⟨rfl, rfl⟩
  | bool b => exact Or.inr ⟨rfl, rfl⟩
  | num n => exact Or.inr ⟨rfl, rfl⟩
  | str s => exact Or.inr ⟨rfl, rfl⟩
  | arr xs => exact Or.inr ⟨rfl, rfl⟩

lemma combineX86_ok_instructions {a : Except DecodeErr (List String)}
    {b : Except DecodeErr (List X86Extension)} {c : Except DecodeErr (List X86Attribute)}
    {d : Except DecodeErr (List X86SpecialReg)} {e : Except DecodeErr (List X86Shortcut)}
    {f : Except DecodeErr X86Register} {g : Except DecodeErr (List InstTuple)} {x : X86}
    (h : combineX86 a b c d e f g = .ok x) : g = .ok x.Instructions := by
  unfold combineX86 at h
  split at h
  · cases h; rfl
  · simp at h

lemma combineX86_err {a : Except DecodeErr (List String)}
    {b : Except DecodeErr (List X86Extension)} {c : Except DecodeErr (List X86Attribute)}
    {d : Except DecodeErr (List X86SpecialReg)} {e : Except DecodeErr (List X86Shortcut)}
    {f : Except DecodeErr X86Register} {g : Except DecodeErr (List InstTuple)}
    {e0 : DecodeErr} (hg : g = .error e0) :
    combineX86 a b c d e f g = .error .schemaMismatch := by
  subst hg
  cases a with
  | error ea => rfl
  | ok a1 =>
    cases b with
    | error eb => rfl
    | ok b1 =>
      cases c with
      | error ec => rfl
      | ok c1 =>
        cases d with
        | error ed => rfl
        | ok d1 =>
          cases e with
          | error ee => rfl
          | ok e1 =>
            cases f with
            | error ef => rfl
            | ok f1 => rfl

lemma decodeInstTuple_wrong_len {ys : List Json} (h : ys.length ≠ 5) :
    decodeInstTuple (.arr ys) = .error .schemaMismatch := by
  rcases ys with _ | ⟨a, _ | ⟨b, _ | ⟨c, _ | ⟨d, _ | ⟨e, _ | ⟨f, t⟩⟩⟩⟩⟩⟩
  · rfl
  · rfl
  · rfl
  · rfl
  · rfl
  · exact absurd rfl h
  · rfl

lemma exceptMapList_mem_err {f : Json → Except DecodeErr α} {xs : List Json} {x : Json}
    {e : DecodeErr} (hmem : x ∈ xs) (hx : f x = .error e) :
    ∃ e2, exceptMapList f xs = .error e2 := by
  induction xs with
  | nil => cases hmem
  | cons y ys ih =>
    rcases List.mem_cons.mp hmem with rfl | hmem2
    · exact ⟨e, by simp [exceptMapList, hx]⟩
    · cases hf : f y with
      | error ey => exact ⟨ey, by simp [exceptMapList, hf]⟩
      | ok ay =>
        obtain ⟨e2, he2⟩ := ih hmem2
        exact ⟨e2, by simp [exceptMapList, hf, he2]⟩

/-- C6: decode fails with a schema mismatch when a required key is absent,
and in general exactly when the JSON value does not conform to the
declarative record shape (wrong-arity tuples, wrong types, required field
missing). -/
theorem decodeX86_schemaMismatch_iff :
    (∀ kvs : List (String × Json),
      (lookupKey "architectures" kvs = none ∨ lookupKey "extensions" kvs = none
        ∨ lookupKey "attributes" kvs = none ∨ lookupKey "specialRegs" kvs = none
        ∨ lookupKey "shortcuts" kvs = none ∨ lookupKey "registers" kvs = none) →
      decodeX86 (Json.obj kvs) = .error .schemaMismatch)
    ∧ ∀ j, (decodeX86 j = .error .schemaMismatch ↔ conformsX86 j = false) := by
  have hiff : ∀ j, (decodeX86 j = .error .schemaMismatch ↔ conformsX86 j = false) := by
    intro j
    rcases decodeX86_cases j with ⟨r, hok, hct⟩ | ⟨herr, hcf⟩
    · simp [hok, hct]
    · simp [herr, hcf]
  refine ⟨?_, hiff⟩
  intro kvs hmiss
  rw [hiff (Json.obj kvs)]
  rcases hmiss with h | h | h | h | h | h <;>
    simp [conformsX86, confKey, h]

/-- Witness for C6 at the empty object, which misses every required key. -/
theorem decodeX86_schemaMismatch_iff_witness :
    decodeX86 (Json.obj []) = .error .schemaMismatch :=
  decodeX86_schemaMismatch_iff.1 [] (Or.inl rfl)

/-- C7: on a conforming object whose `instructions` member is absent (or
is the explicit empty array), the pipeline succeeds and derives zero
instruction records. -/
theorem gen_instructions_omitted (kvs : List (String × Json))
    (hmiss : lookupKey "instructions" kvs = none
      ∨ lookupKey "instructions" kvs = some (Json.arr []))
    (hconf : conformsX86 (Json.obj kvs) = true) :
    ∃ x, gen (Json.obj kvs) = .ok (x, []) ∧ x.Instructions = [] := by
  rcases decodeX86_cases (Json.obj kvs) with ⟨r, hok, _⟩ | ⟨_, hcf⟩
  · have hg : decodeInstructions kvs = .ok r.Instructions :=
      combineX86_ok_instructions hok
    have hempty : r.Instructions = [] := by
      rcases hmiss with h | h
      · unfold decodeInstructions at hg
        rw [h] at hg
        exact (Except.ok.inj hg).symm
      · unfold decodeInstructions at hg
        rw [h] at hg
        exact (Except.ok.inj hg).symm
    refine ⟨{ r with Instructions := [] }, ?_, rfl⟩
    simp [gen, hok, hempty, genInstructions]
  · rw [hconf] at hcf
    exact absurd hcf (by simp)

/-- Witness for C7 at a concrete conforming fixture without an
`instructions` member. -/
theorem gen_instructions_omitted_witness :
    ∃ x, gen (Json.obj [("architectures", Json.arr []), ("extensions", Json.arr []),
      ("attributes", Json.arr []), ("specialRegs", Json.arr []),
      ("shortcuts", Json.arr []), ("registers", Json.obj [])]) = .ok (x, [])
      ∧ x.Instructions = [] :=
  gen_instructions_omitted _ (Or.inl rfl) (by rfl)

/-- C5 counterexample: on a conforming object whose `instructions` member
holds a four-element tuple, the pipeline fails at the structural decode
with a schema mismatch — which is a different error kind than the
malformed-instruction-tuple error the claim names, and it is raised by
the decode, not by the derived mapping step. -/
theorem gen_wrongTuple_counterexample :
    gen (Json.obj [("architectures", Json.arr []), ("extensions", Json.arr []),
      ("attributes", Json.arr []), ("specialRegs", Json.arr []),
      ("shortcuts", Json.arr []), ("registers", Json.obj []),
      ("instructions", Json.arr [Json.arr [Json.str "mov", Json.str "r,r",
        Json.str "RM", Json.str "0x89"]])])
      = .error DecodeErr.schemaMismatch
    ∧ DecodeErr.schemaMismatch ≠ DecodeErr.malformedInstructionTuple :=
  ⟨rfl, by decide⟩

/-- C5 (amended): whenever the `instructions` member contains an array
whose length is not exactly five, the pipeline fails — with a schema
mismatch at the structural decode, since the tuple arity is part of the
record shape (`[][5]string`) — and no derived records are produced. -/
theorem gen_wrong_arity (kvs : List (String × Json)) (xs ys : List Json)
    (hl : lookupKey "instructions" kvs = some (Json.arr xs))
    (hmem : Json.arr ys ∈ xs) (hlen : ys.length ≠ 5) :
    gen (Json.obj kvs) = .error .schemaMismatch := by
  have hbad : decodeInstTuple (Json.arr ys) = .error .schemaMismatch :=
    decodeInstTuple_wrong_len hlen
  obtain ⟨e2, he2⟩ := exceptMapList_mem_err hmem hbad
  have hgerr : decodeInstructions kvs = .error e2 := by
    unfold decodeInstructions
    rw [hl]
    exact he2
  have hdec : decodeX86 (Json.obj kvs) = .error .schemaMismatch := by
    show combineX86 _ _ _ _ _ _ (decodeInstructions kvs) = .error .schemaMismatch
    exact combineX86_err hgerr
  simp [gen, hdec]

/-- Witness for the amended C5 at a concrete six-element tuple. -/
theorem gen_wrong_arity_witness :
    gen (Json.obj [("instructions", Json.arr [Json.arr [Json.str "a", Json.str "b",
      Json.str "c", Json.str "d", Json.str "e", Json.str "f"]])])
      = .error DecodeErr.schemaMismatch :=
  gen_wrong_arity [("instructions", Json.arr [Json.arr [Json.str "a", Json.str "b",
      Json.str "c", Json.str "d", Json.str "e", Json.str "f"]])]
    [Json.arr [Json.str "a", Json.str "b", Json.str "c", Json.str "d", Json.str "e",
      Json.str "f"]]
    [Json.str "a", Json.str "b", Json.str "c", Json.str "d", Json.str "e", Json.str "f"]
    rfl (by simp) (by decide)

lemma exceptMapList_map_ok (f : Json → Except DecodeErr α) (g : α → Json)
    (h : ∀ x, f (g x) = .ok x) : ∀ l : List α, exceptMapList f (l.map g) = .ok l := by
  intro l
  induction l with
  | nil => rfl
  | cons x xs ih => simp [exceptMapList, h x, ih]

lemma roundExtension (e : X86Extension) : decodeExtension (encodeExtension e) = .ok e := rfl

lemma roundAttribute (a : X86Attribute) : decodeAttribute (encodeAttribute a) = .ok a := rfl

lemma roundSpecialReg (s : X86SpecialReg) :
    decodeSpecialReg (encodeSpecialReg s) = .ok s := rfl

lemma roundShortcut (s : X86Shortcut) : decodeShortcut (encodeShortcut s) = .ok s := rfl

lemma roundInstTuple (t : InstTuple) : decodeInstTuple (encodeInstTuple t) = .ok t := rfl

lemma roundRegisterData (d : X86RegisterData) :
    decodeRegisterData (encodeRegisterData d) = .ok d := by
  obtain ⟨ns, kd, an⟩ := d
  have hns : exceptMapList asStr (ns.map Json.str) = .ok ns :=
    exceptMapList_map_ok asStr Json.str (fun s => rfl) ns
  cases an with
  | none =>
    simp [encodeRegisterData, decodeRegisterData, reqField, decodeJsonList,
      decodeAnyField, lookupKey, asStr, hns]
  | some a2 =>
    simp [encodeRegisterData, decodeRegisterData, reqField, decodeJsonList,
      decodeAnyField, lookupKey, asStr, hns]

lemma roundOptRegData (o : Option X86RegisterData) :
    decodeOptRegData (some (encodeOptRegData o)) = .ok o := by
  cases o with
  | none => rfl
  | some d =>
    show ((match decodeRegisterData (encodeRegisterData d) with
      | Except.ok d2 => Except.ok (some d2)
      | Except.error e => Except.error e) : Except DecodeErr (Option X86RegisterData))
      = Except.ok (some d)
    rw [roundRegisterData]

lemma roundRegister (r : X86Register) : decodeRegister (encodeRegister r) = .ok r := by
  simp [decodeRegister, encodeRegister, lookupKey, roundOptRegData]

/-- C9: decoding the canonical JSON form of any database record recovers
the record exactly, field for field — no coercion and no loss on any
string, list element, list order or nested record value. -/
theorem decode_encode_roundtrip (x : X86) : decodeX86 (encodeX86 x) = .ok x := by
  have h1 := exceptMapList_map_ok asStr Json.str (fun s => rfl) x.Architectures
  have h2 := exceptMapList_map_ok decodeExtension encodeExtension roundExtension x.Extensions
  have h3 := exceptMapList_map_ok decodeAttribute encodeAttribute roundAttribute x.Attributes
  have h4 := exceptMapList_map_ok decodeSpecialReg encodeSpecialReg roundSpecialReg
    x.SpecialRegs
  have h5 := exceptMapList_map_ok decodeShortcut encodeShortcut roundShortcut x.Shortcuts
  have h6 := roundRegister x.Register
  have h7 := exceptMapList_map_ok decodeInstTuple encodeInstTuple roundInstTuple
    x.Instructions
  simp [decodeX86, encodeX86, combineX86, reqField, decodeJsonList, decodeInstructions,
    lookupKey, h1, h2, h3, h4, h5, h6, h7]
